import Mathlib

/-!
Verification of `Scripts/sds_codegen/sds_parse_swift_bridging.py`.

The script scans a source tree for Swift files, extracts top-level
protocol and class declarations from the structure document produced by
the external `sourcekitten` tool, and emits stub `-Swift.h` bridging
headers declaring those names for Objective-C consumption.

The Python source is shallowly embedded below.  Helpers imported from
`sds_common` (which is not part of the sources) are modelled from the
specification where noted in their doc comments.  JSON decoding of the
external tool's standard output is modelled by taking the already
structured document as the tool's result, matching the specification's
treatment of the tool as an opaque collaborator returning a structured
document.
-/

set_option maxRecDepth 100000

namespace SdsBridging

/-- A node of the sourcekitten structure document (a `json_map` in the
script), keeping the fields the script reads (`key.kind`,
`key.runtime_name`, `key.name`) together with the nested
`key.substructure` list, which the script never descends into.  A `get`
on an absent key yields `none`, hence the `Option` fields. -/
inductive JsonMap : Type where
  | mk (kind : Option String) (runtime_name : Option String)
      (name : Option String) (substructure : List JsonMap)

/-- Field accessor for `key.kind`. -/
def JsonMap.kind : JsonMap → Option String
  | .mk k _ _ _ => k

/-- Field accessor for `key.runtime_name`. -/
def JsonMap.runtime_name : JsonMap → Option String
  | .mk _ r _ _ => r

/-- Field accessor for `key.name`. -/
def JsonMap.name : JsonMap → Option String
  | .mk _ _ n _ => n

/-- Field accessor for the nested `key.substructure`. -/
def JsonMap.substructure : JsonMap → List JsonMap
  | .mk _ _ _ s => s

/-- The decoded top-level document: `json_data.get('key.substructure')`,
which is `None` when the key is absent. -/
structure SwiftAst where
  substructure : Option (List JsonMap)

/-- The per-directory accumulator `Namespace` of the script, with its two
ordered name sequences. -/
structure Namespace where
  swift_protocol_names : List String
  swift_class_names : List String
deriving DecidableEq, Repr

/-- Python `s.startswith('_')`: true exactly when the first character of
`s` is an underscore (false on the empty string). -/
def startswith_underscore (s : String) : Bool :=
  match s.data with
  | [] => false
  | c :: _ => c = '_'

/-- Python `s.endswith(suffix)`. -/
def endswith (s suffix : String) : Bool :=
  suffix.data.isSuffixOf s.data

/-- The whitespace characters stripped by Python's `str.strip()`. -/
def py_is_space (c : Char) : Bool :=
  c = ' ' || c = '\t' || c = '\n' || c = '\r' || c = '\x0b' || c = '\x0c'

/-- Python `s.strip()`: remove leading and trailing whitespace. -/
def py_strip (s : String) : String :=
  ⟨(((s.data.dropWhile py_is_space).reverse).dropWhile py_is_space).reverse⟩

/-- Modelled from the spec: `sds_common.fail` (imported by the script but
not among the sources) is the process-wide fatal-error helper; per the
specification it reports the message and terminates the whole run with a
non-zero exit code.  It is modelled as an `Except.error` that aborts the
embedded computation. -/
def fail {α : Type} (msg : String) : Except String α := .error msg

/-- The name-selection sequence of `parse_swift_ast`:
`name = json_map.get('key.runtime_name')`, replaced by
`json_map.get('key.name')` when it is `None`, empty, or starts with an
underscore. -/
def resolved_name (m : JsonMap) : Option String :=
  match m.runtime_name with
  | none => m.name
  | some n => if n.length < 1 || startswith_underscore n then m.name else some n

/-- One iteration of the `for json_map in json_maps` loop of
`parse_swift_ast`: protocol and class declarations resolve a name, fail
on a missing name, skip underscore-prefixed names, and append to the
matching sequence; every other kind is ignored. -/
def parse_swift_ast_step (ns : Namespace) (m : JsonMap) : Except String Namespace :=
  match m.kind with
  | none => .ok ns
  | some kind =>
    if kind = "source.lang.swift.decl.protocol" then
      match resolved_name m with
      | none => fail "protocol is missing name."
      | some name =>
        if name.length < 1 then fail "protocol is missing name."
        else if startswith_underscore name then .ok ns
        else .ok { ns with swift_protocol_names := ns.swift_protocol_names ++ [name] }
    else if kind = "source.lang.swift.decl.class" then
      match resolved_name m with
      | none => fail "class is missing name."
      | some name =>
        if name.length < 1 then fail "class is missing name."
        else if startswith_underscore name then .ok ns
        else .ok { ns with swift_class_names := ns.swift_class_names ++ [name] }
    else .ok ns

/-- The loop of `parse_swift_ast` over the top-level `json_maps`; a
`fail` aborts the run, so it propagates as an error. -/
def parse_maps : Namespace → List JsonMap → Except String Namespace
  | ns, [] => .ok ns
  | ns, m :: rest =>
    match parse_swift_ast_step ns m with
    | .error e => .error e
    | .ok ns2 => parse_maps ns2 rest

/-- `parse_swift_ast`: returns the namespace unchanged when the document
has no `key.substructure`, otherwise runs the declaration loop over the
direct children. -/
def parse_swift_ast (ns : Namespace) (ast : SwiftAst) : Except String Namespace :=
  match ast.substructure with
  | none => .ok ns
  | some maps => parse_maps ns maps

/-- The external tool's response for one file: exit code, structured
standard output, and standard error, as captured by `ows_getoutput`. -/
structure ToolResult where
  exit_code : Int
  output : SwiftAst
  error_output : String

/-- `process_file`, taking the file's basename and the external tool's
response for it.  The `Nat` component counts invocations of the external
AST tool performed for this file (`0` on the two skip paths, `1` when
the tool was run and parsing succeeded); a non-zero tool exit code takes
the `fail` path before any parsing of the output. -/
def process_file (filename : String) (tool : ToolResult) (ns : Namespace) :
    Except String (Namespace × Nat) :=
  if endswith filename ".swift" = false then .ok (ns, 0)
  else if filename = "EmojiWithSkinTones+String.swift" then .ok (ns, 0)
  else if tool.exit_code ≠ 0 then fail "Are you missing sourcekitten? Install with homebrew?"
  else (parse_swift_ast ns tool.output).map (fun ns2 => (ns2, 1))

/-- The protocol stub text appended per protocol name in
`generate_swift_bridging_header`. -/
def protocol_stub (name : String) : String :=
  "\n@protocol " ++ name ++ "\n@end\n"

/-- The class stub text appended per class name in
`generate_swift_bridging_header`. -/
def class_stub (name : String) : String :=
  "\n@interface " ++ name ++ " : NSObject\n@end\n"

/-- The `output` list built by the two `for` loops of
`generate_swift_bridging_header`: protocol stubs first, then class
stubs, each appended in sequence order. -/
def generate_output_list (ns : Namespace) : List String :=
  let output : List String := []
  let output := ns.swift_protocol_names.foldl (fun acc n => acc ++ [protocol_stub n]) output
  let output := ns.swift_class_names.foldl (fun acc n => acc ++ [class_stub n]) output
  output

/-- Modelled from the spec: `sds_common.pretty_module_path(__file__)`
(not among the sources) renders the generating script's path; per the
specification this is a fixed string naming the generator. -/
def pretty_module_path : String := "Scripts/sds_codegen/sds_parse_swift_bridging.py"

/-- The fixed license banner and generated-file notice prepended by
`generate_swift_bridging_header`. -/
def header_banner : String :=
  "//\n// Copyright 2022 Signal Messenger, LLC\n// SPDX-License-Identifier: AGPL-3.0-only\n//\n\n#import <Foundation/Foundation.h>\n\n// NOTE: This file is generated by "
    ++ pretty_module_path
    ++ ".\n// Do not manually edit it, instead run `sds_codegen.sh`.\n\n"

/-- Modelled from the spec: `sds_common.clean_up_generated_swift` (not
among the sources) is a dialect-specific whitespace/formatting
normalization post-pass whose exact rules the specification leaves out
of scope as an external collaborator concern; it is modelled as the
identity normalization. -/
def clean_up_generated_swift (s : String) : String := s

/-- `generate_swift_bridging_header` as a function from the completed
namespace to the file content written, or `none` when the early `return`
is taken because the joined stub text is empty.  `none` models that the
function returns before the `os.makedirs` call and before opening the
output file, so no directory is created and no file is written. -/
def generate_swift_bridging_header (ns : Namespace) : Option String :=
  let output := py_strip (String.intercalate "\n" (generate_output_list ns))
  if output.length < 1 then none
  else some (clean_up_generated_swift (py_strip (header_banner ++ output)))

/-- One source file of a directory, as `process_dir` sees it: its
basename and the external tool's response were it invoked on the file. -/
structure SourceFile where
  filename : String
  tool : ToolResult

/-- The `for (idx, file_path) in enumerate(file_paths)` loop of
`process_dir`, threading the per-directory namespace through
`process_file`; a `fail` aborts the run. -/
def process_files : Namespace → List SourceFile → Except String Namespace
  | ns, [] => .ok ns
  | ns, f :: rest =>
    match process_file f.filename f.tool ns with
    | .error e => .error e
    | .ok (ns2, _) => process_files ns2 rest

/-- The output path `<dst>/<dir_name>/<dir_name>-Swift.h` of
`process_dir`, relative to the destination root. -/
def bridging_header_path (dir_name : String) : String :=
  dir_name ++ "/" ++ dir_name ++ "-Swift.h"

/-- `process_dir` for one directory: a fresh namespace, the file loop,
then one header-synthesis pass; yields the content of the header written
for this directory, or `none` when nothing is written. -/
def process_dir (files : List SourceFile) : Except String (Option String) :=
  match process_files (Namespace.mk [] []) files with
  | .error e => .error e
  | .ok ns => .ok (generate_swift_bridging_header ns)

/-- The generated destination tree, as an ordered list of
(relative path, file content) pairs. -/
abbrev DestTree := List (String × String)

/-- The unconditional `shutil.rmtree(swift_bridging_path)` of the main
block, on the destination-tree abstraction: the whole tree is removed. -/
def delete_dest_tree (_dest : DestTree) : DestTree :=
  []

/-- One target directory of a run: its name and its files in iteration
order (a Pods subdirectory or one of the three first-party
directories). -/
structure InputDir where
  dir_name : String
  files : List SourceFile

/-- The sequence of `process_dir` calls of the main block, accumulating
written headers into the destination tree. -/
def run_dirs : DestTree → List InputDir → Except String DestTree
  | tree, [] => .ok tree
  | tree, d :: rest =>
    match process_dir d.files with
    | .error e => .error e
    | .ok none => run_dirs tree rest
    | .ok (some content) =>
      run_dirs (tree ++ [(bridging_header_path d.dir_name, content)]) rest

/-- The main block as a function of the run's inputs: the destination
tree is deleted first if it exists, then every target directory is
processed in order. -/
def run_tool (dirs : List InputDir) (dest : DestTree) : Except String DestTree :=
  run_dirs (delete_dest_tree dest) dirs

/-! ## Helper lemmas -/

lemma length_ge_one_of_underscore {n : String} (h : startswith_underscore n = true) :
    ¬ n.length < 1 := by
  obtain ⟨data⟩ := n
  cases data with
  | nil => simp [startswith_underscore] at h
  | cons c cs => simp [String.length]

lemma ne_empty_of_length_ge_one {n : String} (h : ¬ n.length < 1) : n ≠ "" := by
  intro he
  subst he
  simp at h

lemma foldl_append_singleton {α β : Type} (f : α → β) :
    ∀ (l : List α) (init : List β),
      l.foldl (fun acc n => acc ++ [f n]) init = init ++ l.map f
  | [], _ => by simp
  | a :: l, init => by
    simp only [List.foldl, List.map]
    rw [foldl_append_singleton f l (init ++ [f a])]
    simp

/-! ## Claims -/

/-- C1: For every declaration node of kind protocol or class, the
resolved name equals the node's `key.runtime_name` whenever that runtime
name is present, non-empty, and does not start with an underscore;
otherwise the resolved name equals the node's declared `key.name`.  (The
resolution sequence of `parse_swift_ast` is the same for both
declaration kinds, captured by `resolved_name`.) -/
theorem c1_resolved_name_rule (m : JsonMap) :
    (∀ rn, m.runtime_name = some rn → 0 < rn.length →
      startswith_underscore rn = false → resolved_name m = some rn) ∧
    ((m.runtime_name = none ∨
      ∃ rn, m.runtime_name = some rn ∧
        (rn.length < 1 ∨ startswith_underscore rn = true)) →
      resolved_name m = m.name) := by
  constructor
  · intro rn hr hlen hus
    have h1 : ¬ rn.length < 1 := by omega
    simp [resolved_name, hr, hus, h1]
  · intro h
    rcases h with h | ⟨rn, hr, hbad⟩
    · simp [resolved_name, h]
    · rcases hbad with hlen | hus
      · simp [resolved_name, hr, hlen]
      · simp [resolved_name, hr, hus]

/-- Witness for C1 at concrete nodes: a usable runtime name wins; an
underscore-prefixed runtime name falls back to the declared name. -/
theorem c1_resolved_name_rule_witness :
    resolved_name (JsonMap.mk (some "source.lang.swift.decl.protocol")
      (some "OWSTypingIndicators") (some "TypingIndicators") [])
      = some "OWSTypingIndicators" ∧
    resolved_name (JsonMap.mk (some "source.lang.swift.decl.class")
      (some "_Bar") (some "Baz") []) = some "Baz" := by
  constructor
  · exact (c1_resolved_name_rule _).1 "OWSTypingIndicators" rfl (by decide) (by decide)
  · exact (c1_resolved_name_rule (JsonMap.mk (some "source.lang.swift.decl.class")
      (some "_Bar") (some "Baz") [])).2 (Or.inr ⟨"_Bar", rfl, Or.inr (by decide)⟩)

/-- C2: For every protocol or class declaration whose resolved name
starts with an underscore, the declaration is skipped: the loop step
leaves the namespace unchanged, so the name is appended to neither
sequence and never reaches the generated header, regardless of
declaration kind. -/
theorem c2_underscore_skip (ns : Namespace) (m : JsonMap) (k n : String)
    (hk : m.kind = some k)
    (hdecl : k = "source.lang.swift.decl.protocol" ∨ k = "source.lang.swift.decl.class")
    (hres : resolved_name m = some n)
    (hus : startswith_underscore n = true) :
    parse_swift_ast_step ns m = .ok ns := by
  have hlen := length_ge_one_of_underscore hus
  rcases hdecl with h | h <;> subst h <;>
    simp [parse_swift_ast_step, hk, hres, hus, hlen]

/-- Witness for C2: an underscore-named protocol and an underscore-named
class each leave a concrete namespace untouched. -/
theorem c2_underscore_skip_witness :
    parse_swift_ast_step (Namespace.mk ["A"] ["B"])
      (JsonMap.mk (some "source.lang.swift.decl.protocol") none (some "_Priv") [])
      = .ok (Namespace.mk ["A"] ["B"]) ∧
    parse_swift_ast_step (Namespace.mk [] [])
      (JsonMap.mk (some "source.lang.swift.decl.class") (some "_Hidden") (some "_Also") [])
      = .ok (Namespace.mk [] []) := by
  constructor
  · exact c2_underscore_skip _ _ _ "_Priv" rfl (Or.inl rfl) rfl (by decide)
  · exact c2_underscore_skip _ _ _ "_Also" rfl (Or.inr rfl) rfl (by decide)

/-- C4: For every protocol or class declaration node whose resolved name
is empty (both the runtime name and the declared name unusable),
processing that declaration takes the `fail` path, which (modelled from
the spec) terminates the tool with a non-zero exit code. -/
theorem c4_missing_name_fatal (ns : Namespace) (m : JsonMap) (k : String)
    (hk : m.kind = some k)
    (hdecl : k = "source.lang.swift.decl.protocol" ∨ k = "source.lang.swift.decl.class")
    (hres : resolved_name m = none ∨ resolved_name m = some "") :
    ∃ msg, parse_swift_ast_step ns m = fail msg := by
  rcases hdecl with h | h <;> subst h
  · refine ⟨"protocol is missing name.", ?_⟩
    rcases hres with hres | hres <;> simp [parse_swift_ast_step, hk, hres, fail]
  · refine ⟨"class is missing name.", ?_⟩
    rcases hres with hres | hres <;> simp [parse_swift_ast_step, hk, hres, fail]

/-- Witness for C4: a protocol node with neither runtime name nor
declared name, and a class node whose names are empty strings, both hit
the fatal path. -/
theorem c4_missing_name_fatal_witness :
    (∃ msg, parse_swift_ast_step (Namespace.mk [] [])
      (JsonMap.mk (some "source.lang.swift.decl.protocol") none none []) = fail msg) ∧
    (∃ msg, parse_swift_ast_step (Namespace.mk [] [])
      (JsonMap.mk (some "source.lang.swift.decl.class") (some "") (some "") []) = fail msg) := by
  constructor
  · exact c4_missing_name_fatal _ _ _ rfl (Or.inl rfl) (Or.inl rfl)
  · exact c4_missing_name_fatal _ _ _ rfl (Or.inr rfl) (Or.inr rfl)

/-- C5: For every namespace whose protocol-name and class-name sequences
are both empty, the header synthesizer takes its early return: no
content is produced (`none`), which models returning before the
`os.makedirs` call and the file write, so no file and no parent
directory is created. -/
theorem c5_empty_no_write (ns : Namespace)
    (h1 : ns.swift_protocol_names = []) (h2 : ns.swift_class_names = []) :
    generate_swift_bridging_header ns = none := by
  obtain ⟨ps, cs⟩ := ns
  simp only at h1 h2
  subst h1
  subst h2
  rfl

/-- Witness for C5 at the empty namespace. -/
theorem c5_empty_no_write_witness :
    generate_swift_bridging_header (Namespace.mk [] []) = none :=
  c5_empty_no_write (Namespace.mk [] []) rfl rfl

/-- C3: For every completed namespace with N protocol names and M class
names, the stub list rendered into the header is exactly the protocol
stubs in sequence order followed by the class stubs in sequence order —
N + M stubs, order preserved, duplicates preserved as repeated blocks
(no deduplication, no sorting) — and any header content actually written
is the fixed banner followed by precisely the newline-joined form of
that list. -/
theorem c3_stub_output (ns : Namespace) :
    generate_output_list ns
      = ns.swift_protocol_names.map protocol_stub ++ ns.swift_class_names.map class_stub ∧
    (generate_output_list ns).length
      = ns.swift_protocol_names.length + ns.swift_class_names.length ∧
    (∀ s, generate_swift_bridging_header ns = some s →
      s = clean_up_generated_swift (py_strip (header_banner ++
        py_strip (String.intercalate "\n"
          (ns.swift_protocol_names.map protocol_stub
            ++ ns.swift_class_names.map class_stub))))) := by
  have hlist : generate_output_list ns
      = ns.swift_protocol_names.map protocol_stub ++ ns.swift_class_names.map class_stub := by
    simp [generate_output_list, foldl_append_singleton]
  refine ⟨hlist, by simp [hlist], ?_⟩
  intro s hs
  rw [generate_swift_bridging_header, hlist] at hs
  by_cases hempty :
      (py_strip (String.intercalate "\n"
        (ns.swift_protocol_names.map protocol_stub
          ++ ns.swift_class_names.map class_stub))).length < 1
  · simp [hempty] at hs
  · simp [hempty] at hs
    exact hs.symm

/-- Witness for C3 at a namespace with one protocol and one class name:
the content implication is discharged at the concretely evaluated
header. -/
theorem c3_stub_output_witness :
    (header_banner ++ "@protocol Foo\n@end\n\n\n@interface Baz : NSObject\n@end")
      = clean_up_generated_swift (py_strip (header_banner ++
        py_strip (String.intercalate "\n"
          ((["Foo"].map protocol_stub) ++ (["Baz"].map class_stub))))) :=
  (c3_stub_output (Namespace.mk ["Foo"] ["Baz"])).2.2
    (header_banner ++ "@protocol Foo\n@end\n\n\n@interface Baz : NSObject\n@end") (by rfl)

/-- C6: For every file whose basename does not end in `.swift`, and for
the one excluded file `EmojiWithSkinTones+String.swift`, processing the
file performs zero invocations of the external AST tool and leaves the
namespace exactly unchanged. -/
theorem c6_skip_non_swift (filename : String) (tool : ToolResult) (ns : Namespace)
    (h : endswith filename ".swift" = false ∨ filename = "EmojiWithSkinTones+String.swift") :
    process_file filename tool ns = .ok (ns, 0) := by
  rcases h with h | h
  · simp [process_file, h]
  · subst h
    rfl

/-- Witness for C6: a non-Swift file and the excluded Swift file are
both no-ops on a concrete namespace. -/
theorem c6_skip_non_swift_witness :
    process_file "README.md"
      (ToolResult.mk 0 (SwiftAst.mk none) "") (Namespace.mk ["P"] [])
      = .ok (Namespace.mk ["P"] [], 0) ∧
    process_file "EmojiWithSkinTones+String.swift"
      (ToolResult.mk 0 (SwiftAst.mk none) "") (Namespace.mk ["P"] [])
      = .ok (Namespace.mk ["P"] [], 0) := by
  constructor
  · exact c6_skip_non_swift _ _ _ (Or.inl (by decide))
  · exact c6_skip_non_swift _ _ _ (Or.inr rfl)

/-- C7: If the external AST tool returns a non-zero exit code for a
processed Swift file, the run is aborted through the `fail` path
(modelled from the spec as terminating the whole run) with the
diagnostic message, and the tool's output is never parsed: the result is
the same error for every possible output document and the failure is
not a per-file skip. -/
theorem c7_tool_failure_fatal (filename : String) (tool : ToolResult) (ns : Namespace)
    (h1 : endswith filename ".swift" = true)
    (h2 : filename ≠ "EmojiWithSkinTones+String.swift")
    (h3 : tool.exit_code ≠ 0) :
    process_file filename tool ns
      = fail "Are you missing sourcekitten? Install with homebrew?" ∧
    ∀ ast : SwiftAst,
      process_file filename (ToolResult.mk tool.exit_code ast tool.error_output) ns
        = fail "Are you missing sourcekitten? Install with homebrew?" := by
  constructor
  · simp [process_file, h1, h2, h3]
  · intro ast
    simp [process_file, h1, h2, h3]

/-- Witness for C7: a failing tool invocation on a concrete Swift file
aborts with the diagnostic, for a document that would otherwise have
added a protocol name. -/
theorem c7_tool_failure_fatal_witness :
    process_file "Foo.swift"
      (ToolResult.mk 1 (SwiftAst.mk
        (some [JsonMap.mk (some "source.lang.swift.decl.protocol") none (some "Foo") []])) "")
      (Namespace.mk [] [])
      = fail "Are you missing sourcekitten? Install with homebrew?" :=
  (c7_tool_failure_fatal "Foo.swift"
    (ToolResult.mk 1 (SwiftAst.mk
      (some [JsonMap.mk (some "source.lang.swift.decl.protocol") none (some "Foo") []])) "")
    (Namespace.mk [] []) (by decide) (by decide) (by decide)).1

/-- Agreement of two nodes on every field the extractor reads
(`key.kind`, `key.runtime_name`, `key.name`); their nested
`key.substructure` may differ arbitrarily. -/
def top_fields_eq (m1 m2 : JsonMap) : Prop :=
  m1.kind = m2.kind ∧ m1.runtime_name = m2.runtime_name ∧ m1.name = m2.name

lemma parse_step_congr {m1 m2 : JsonMap} (h : top_fields_eq m1 m2) (ns : Namespace) :
    parse_swift_ast_step ns m1 = parse_swift_ast_step ns m2 := by
  obtain ⟨hk, hr, hn⟩ := h
  have hres : resolved_name m1 = resolved_name m2 := by
    simp [resolved_name, hr, hn]
  simp [parse_swift_ast_step, hk, hres]

lemma parse_maps_congr {maps1 maps2 : List JsonMap}
    (h : List.Forall₂ top_fields_eq maps1 maps2) :
    ∀ ns, parse_maps ns maps1 = parse_maps ns maps2 := by
  induction h with
  | nil => intro ns; rfl
  | cons hm _ ih =>
    intro ns
    simp only [parse_maps, parse_step_congr hm ns]
    cases parse_swift_ast_step ns _ with
    | error e => rfl
    | ok ns2 => exact ih ns2

/-- C8: Only the direct children of the top-level `key.substructure`
list are inspected: the extraction result depends only on the top-level
fields of those children, so declarations nested inside them are never
visited and contribute no names (replacing any child's nested
substructure changes nothing). -/
theorem c8_top_level_only (ns : Namespace) (ast1 ast2 : SwiftAst)
    (maps1 maps2 : List JsonMap)
    (h1 : ast1.substructure = some maps1) (h2 : ast2.substructure = some maps2)
    (h : List.Forall₂ top_fields_eq maps1 maps2) :
    parse_swift_ast ns ast1 = parse_swift_ast ns ast2 := by
  simp only [parse_swift_ast, h1, h2]
  exact parse_maps_congr h ns

/-- Witness for C8: a document whose only child is a non-declaration
node with a nested class declaration parses exactly like the same
document with the nested declaration removed — the nested class
contributes no name. -/
theorem c8_top_level_only_witness :
    parse_swift_ast (Namespace.mk [] [])
      (SwiftAst.mk (some [JsonMap.mk (some "source.lang.swift.expr.call") none (some "outer")
        [JsonMap.mk (some "source.lang.swift.decl.class") none (some "Nested") []]]))
      = parse_swift_ast (Namespace.mk [] [])
        (SwiftAst.mk (some [JsonMap.mk (some "source.lang.swift.expr.call") none (some "outer") []])) :=
  c8_top_level_only (Namespace.mk [] []) _ _ _ _ rfl rfl
    (List.Forall₂.cons ⟨rfl, rfl, rfl⟩ List.Forall₂.nil)

/-- C9: The destination tree is deleted as the first action of a run, so
the produced tree is independent of whatever destination existed
beforehand; in particular two successive runs on the same input produce
byte-identical generated headers (all header text is a function of the
collected names and fixed banner text only, with no run-dependent
data). -/
theorem c9_rebuild_idempotent (dirs : List InputDir) (d1 d2 t : DestTree) :
    run_tool dirs d1 = run_tool dirs d2 ∧
    (run_tool dirs d1 = .ok t → run_tool dirs t = .ok t) := by
  constructor
  · rfl
  · intro h
    exact h ▸ rfl

/-- Witness for C9: a concrete run over one directory with one protocol
file, started from a stale destination tree, reproduces its own output
when run again on top of that output. -/
theorem c9_rebuild_idempotent_witness :
    run_tool
      [InputDir.mk "SignalServiceKit"
        [SourceFile.mk "Foo.swift" (ToolResult.mk 0 (SwiftAst.mk
          (some [JsonMap.mk (some "source.lang.swift.decl.protocol") none (some "Foo") []])) "")]]
      [("SignalServiceKit/SignalServiceKit-Swift.h", header_banner ++ "@protocol Foo\n@end")]
      = .ok [("SignalServiceKit/SignalServiceKit-Swift.h", header_banner ++ "@protocol Foo\n@end")] :=
  (c9_rebuild_idempotent
    [InputDir.mk "SignalServiceKit"
      [SourceFile.mk "Foo.swift" (ToolResult.mk 0 (SwiftAst.mk
        (some [JsonMap.mk (some "source.lang.swift.decl.protocol") none (some "Foo") []])) "")]]
    [("stale/junk.h", "junk")] []
    [("SignalServiceKit/SignalServiceKit-Swift.h", header_banner ++ "@protocol Foo\n@end")]).2
    (by rfl)

/-- A name fit for the namespace sequences: non-empty and not
underscore-prefixed. -/
def valid_name (n : String) : Prop :=
  n ≠ "" ∧ startswith_underscore n = false

/-- The implicit invariant of the accumulator: every collected protocol
and class name is a valid name. -/
def namespace_inv (ns : Namespace) : Prop :=
  (∀ n ∈ ns.swift_protocol_names, valid_name n) ∧
  (∀ n ∈ ns.swift_class_names, valid_name n)

lemma step_preserves_inv {ns ns' : Namespace} {m : JsonMap}
    (hinv : namespace_inv ns)
    (h : parse_swift_ast_step ns m = .ok ns') : namespace_inv ns' := by
  unfold parse_swift_ast_step at h
  cases hkind : m.kind with
  | none =>
    rw [hkind] at h
    cases h
    exact hinv
  | some k =>
    simp only [hkind] at h
    by_cases hp : k = "source.lang.swift.decl.protocol"
    · rw [if_pos hp] at h
      cases hres : resolved_name m with
      | none => simp only [hres] at h; simp [fail] at h
      | some name =>
        simp only [hres] at h
        by_cases hlen : name.length < 1
        · rw [if_pos hlen] at h; simp [fail] at h
        · rw [if_neg hlen] at h
          by_cases hus : startswith_underscore name = true
          · simp [hus] at h
            subst h
            exact hinv
          · simp [hus] at h
            subst h
            have hvalid : valid_name name :=
              ⟨ne_empty_of_length_ge_one hlen, by simpa using hus⟩
            refine ⟨?_, hinv.2⟩
            intro n hn
            rcases List.mem_append.mp hn with hn | hn
            · exact hinv.1 n hn
            · rcases List.mem_singleton.mp hn with rfl
              exact hvalid
    · rw [if_neg hp] at h
      by_cases hc : k = "source.lang.swift.decl.class"
      · rw [if_pos hc] at h
        cases hres : resolved_name m with
        | none => simp only [hres] at h; simp [fail] at h
        | some name =>
          simp only [hres] at h
          by_cases hlen : name.length < 1
          · rw [if_pos hlen] at h; simp [fail] at h
          · rw [if_neg hlen] at h
            by_cases hus : startswith_underscore name = true
            · simp [hus] at h
              subst h
              exact hinv
            · simp [hus] at h
              subst h
              have hvalid : valid_name name :=
                ⟨ne_empty_of_length_ge_one hlen, by simpa using hus⟩
              refine ⟨hinv.1, ?_⟩
              intro n hn
              rcases List.mem_append.mp hn with hn | hn
              · exact hinv.2 n hn
              · rcases List.mem_singleton.mp hn with rfl
                exact hvalid
      · rw [if_neg hc] at h
        cases h
        exact hinv

/-- C10: Namespace invariant — every name ever appended to the protocol
or class sequence is a non-empty string that does not start with an
underscore; starting from a namespace satisfying the invariant,
processing any sequence of declaration nodes preserves it. -/
theorem c10_namespace_invariant (maps : List JsonMap) (ns ns' : Namespace)
    (hinv : namespace_inv ns) (h : parse_maps ns maps = .ok ns') :
    namespace_inv ns' := by
  induction maps generalizing ns with
  | nil =>
    simp only [parse_maps] at h
    cases h
    exact hinv
  | cons m rest ih =>
    simp only [parse_maps] at h
    cases hstep : parse_swift_ast_step ns m with
    | error e => rw [hstep] at h; cases h
    | ok ns2 =>
      rw [hstep] at h
      exact ih ns2 (step_preserves_inv hinv hstep) h

/-- Witness for C10: processing a protocol with a runtime name, a
skipped underscore class, and an unnamed-kind node from the empty
namespace yields a namespace satisfying the invariant. -/
theorem c10_namespace_invariant_witness :
    namespace_inv (Namespace.mk ["OWSBaz"] ["Impl"]) :=
  c10_namespace_invariant
    [JsonMap.mk (some "source.lang.swift.decl.protocol") (some "OWSBaz") (some "Baz") [],
     JsonMap.mk (some "source.lang.swift.decl.class") none (some "_Hidden") [],
     JsonMap.mk (some "source.lang.swift.decl.class") none (some "Impl") []]
    (Namespace.mk [] []) (Namespace.mk ["OWSBaz"] ["Impl"])
    ⟨by simp, by simp⟩ (by rfl)

end SdsBridging
